import Mathlib

set_option maxHeartbeats 1000000

/-
Verification of the event dispatcher of go-libwayland (src/wayland.go).

The dispatcher function (wayland.go lines 182-298) receives one inbound
message: a target proxy handle, the wire message metadata (operation name
and signature string) and a raw argument buffer of fixed-size union slots.
It looks the target up in the proxy registry of the Display, resolves the
operation to a callable (a cached reflected method for types implementing
the internaler interface, or a public field named by convention), decodes
the argument buffer against the signature, and invokes the callable.

The embedding below models machine integers as Int/Nat with explicit
wrapping at the relevant width, the C union slot as a record giving every
view the code reads from it, fallible paths (Go panics and reflect panics)
as Except, and user callbacks as recorded invocation events.
-/

/-- Go parameter types occurring in callback fields and delegate methods of
wayland.go, as inspected by the dispatcher through the reflect package. -/
inductive GoTy
  | goInt
  | goInt8
  | goInt16
  | goInt32
  | goInt64
  | goUint
  | goUint8
  | goUint16
  | goUint32
  | goUint64
  | goFixed
  | goString
  | goSlice (elem : GoTy)
  | goPtrOutput
  | goOutputBase
  | goRecvPtr (tag : String)
deriving DecidableEq

/-- Values produced by the argument decoder and passed to callables. -/
inductive GoVal
  | intV (t : GoTy) (v : Int)
  | strV (s : String)
  | sliceI32 (vs : List Int)
  | sliceU32 (vs : List Int)
  | recvV (tag : String)
deriving DecidableEq

/-- Two-complement wrap of an integer to the given bit width, signed or
unsigned, as performed by a Go integer conversion. -/
def wrap (bits : Nat) (sgn : Bool) (v : Int) : Int :=
  let m := v % ((2 : Int) ^ bits)
  if sgn ∧ (2 : Int) ^ (bits - 1) ≤ m then m - (2 : Int) ^ bits else m

/-- Reading a union slot word as int32, as in the expression
star-int32-cast of arg in the i case of the decode loop. -/
def toInt32 (w : Nat) : Int :=
  wrap 32 true (Int.ofNat w)

/-- Reading a union slot word as uint32, as in the u and o cases. -/
def toUInt32 (w : Nat) : Int :=
  wrap 32 false (Int.ofNat w)

/-- Width and signedness of the Go integer types; none for non-numeric. -/
def intBits : GoTy → Option (Nat × Bool)
  | .goInt => some (64, true)
  | .goInt8 => some (8, true)
  | .goInt16 => some (16, true)
  | .goInt32 => some (32, true)
  | .goInt64 => some (64, true)
  | .goUint => some (64, false)
  | .goUint8 => some (8, false)
  | .goUint16 => some (16, false)
  | .goUint32 => some (32, false)
  | .goUint64 => some (64, false)
  | .goFixed => some (32, true)
  | .goOutputBase => some (32, false)
  | _ => none

/-- Conversion of an int/uint rune value to a one-rune Go string, the
semantics of a reflect conversion from an integer type to string. -/
def runeString (v : Int) : String :=
  if 0 ≤ v ∧ (v.toNat).isValidChar then String.singleton (Char.ofNat v.toNat)
  else "�"

/-- Semantics of reflect Value.Convert from a 32-bit integer value to the
target type: numeric targets truncate to the target width, a string target
produces a one-rune string, anything else panics. -/
def convertNum (t : GoTy) (v : Int) : Except String GoVal :=
  match intBits t with
  | some (b, s) => .ok (.intV t (wrap b s v))
  | none =>
    if t = .goString then .ok (.strV (runeString v))
    else .error "reflect.Value.Convert: value cannot be converted"

/-- Semantics of reflect Type.Elem on the parameter type, used by the a
case: defined for slice and pointer kinds, a panic otherwise. -/
def elemOf : GoTy → Except String GoTy
  | .goSlice e => .ok e
  | .goPtrOutput => .ok .goOutputBase
  | _ => .error "reflect: Elem of invalid type"

/-- The wl_array argument payload: wire-reported byte size and the memory
behind the data pointer, read as 32-bit words. -/
structure WlArr where
  size : Nat
  words : List Nat
deriving DecidableEq

/-- One union wl_argument slot. The C union overlays all readings of the
same slot; the record holds each view the decode loop can take: the 32-bit
word (i, u, f, o), the string pointer (s, none for a NULL pointer) and the
array pointer (a). -/
structure WlSlot where
  word : Nat
  strp : Option String
  arrp : WlArr
deriving DecidableEq

/-- Slot access at a buffer offset. The C code reads whatever memory is at
the computed offset; a read past the delivered buffer is modelled by a
zero slot. -/
def slotAt (slots : List WlSlot) (si : Nat) : WlSlot :=
  slots.getD si ⟨0, none, ⟨0, []⟩⟩

/-- Semantics of meth.Type().In(pi): the parameter type at index pi, a
reflect panic when the index is out of range. -/
def getIn (ins : List GoTy) (pi : Nat) : Except String GoTy :=
  match ins[pi]? with
  | some t => .ok t
  | none => .error "reflect: In given index out of range"

/-- Classification of one signature character, mirroring the switch of the
decode loop: the eight argument tags, the skipped characters (the question
mark modifier and the version-gating digits, which both just continue),
and the default case. -/
inductive TagK
  | ti
  | tu
  | tf
  | ts
  | tobj
  | tn
  | ta
  | th
  | skip
  | bad (c : Char)
deriving DecidableEq

/-- Digit characters 0-9, the version-gating annotations of a signature. -/
def isDigitTag (c : Char) : Bool :=
  c = '0' ∨ c = '1' ∨ c = '2' ∨ c = '3' ∨ c = '4' ∨
  c = '5' ∨ c = '6' ∨ c = '7' ∨ c = '8' ∨ c = '9'

/-- The switch of the decode loop, by signature character. -/
def classify (c : Char) : TagK :=
  if c = 'i' then .ti
  else if c = 'u' then .tu
  else if c = 'f' then .tf
  else if c = 's' then .ts
  else if c = 'o' then .tobj
  else if c = 'n' then .tn
  else if c = 'a' then .ta
  else if c = 'h' then .th
  else if c = '?' then .skip
  else if isDigitTag c then .skip
  else .bad c

/-- Tags on which the decode loop panics: file descriptors, new-object
encodings and every character outside the tag alphabet. -/
def badTag (c : Char) : Bool :=
  match classify c with
  | .tn => true
  | .th => true
  | .bad _ => true
  | _ => false

/-- Sequencing of a fallible step: a Go panic aborts everything after it,
a success feeds the produced value to the rest of the computation. -/
def exBind {a b : Type} (x : Except String a) (f : a -> Except String b) :
    Except String b :=
  match x with
  | .error e => .error e
  | .ok v => f v

/-- exBind on a success applies the continuation. -/
theorem exBind_ok {a b : Type} (v : a) (f : a -> Except String b) :
    exBind (.ok v) f = f v := rfl

/-- exBind on a panic propagates the panic. -/
theorem exBind_error {a b : Type} (e : String) (f : a -> Except String b) :
    exBind (.error e) f = .error e := rfl

/-- The decode loop of the dispatcher (wayland.go lines 248-292). ins is
the In-type list of the resolved callable (for a delegated method the
receiver type is at index 0), pi the parameter index i, si the slot offset
i plus argOffset. Each consuming tag advances both; the question mark and
digit cases continue without consuming. -/
def decodeArgs (ins : List GoTy) (slots : List WlSlot) :
    List Char → Nat → Nat → Except String (List GoVal)
  | [], _, _ => .ok []
  | c :: rest, pi, si =>
    match classify c with
    | .skip => decodeArgs ins slots rest pi si
    | .ti =>
      exBind (getIn ins pi) fun ty =>
      exBind (convertNum ty (toInt32 (slotAt slots si).word)) fun v =>
      exBind (decodeArgs ins slots rest (pi + 1) (si + 1)) fun tail =>
      .ok (v :: tail)
    | .tu =>
      exBind (getIn ins pi) fun ty =>
      exBind (convertNum ty (toUInt32 (slotAt slots si).word)) fun v =>
      exBind (decodeArgs ins slots rest (pi + 1) (si + 1)) fun tail =>
      .ok (v :: tail)
    | .tobj =>
      exBind (getIn ins pi) fun ty =>
      exBind (convertNum ty (toUInt32 (slotAt slots si).word)) fun v =>
      exBind (decodeArgs ins slots rest (pi + 1) (si + 1)) fun tail =>
      .ok (v :: tail)
    | .tf =>
      exBind (decodeArgs ins slots rest (pi + 1) (si + 1)) fun tail =>
      .ok (.intV .goFixed (toInt32 (slotAt slots si).word) :: tail)
    | .ts =>
      exBind (decodeArgs ins slots rest (pi + 1) (si + 1)) fun tail =>
      .ok (.strV ((slotAt slots si).strp.getD "") :: tail)
    | .ta =>
      exBind (getIn ins pi) fun ty =>
      exBind (elemOf ty) fun el =>
      let arr := (slotAt slots si).arrp
      if el = .goInt32 then
        exBind (decodeArgs ins slots rest (pi + 1) (si + 1)) fun tail =>
        .ok (.sliceI32 ((arr.words.take (arr.size / 4)).map toInt32) :: tail)
      else if el = .goUint32 then
        exBind (decodeArgs ins slots rest (pi + 1) (si + 1)) fun tail =>
        .ok (.sliceU32 ((arr.words.take (arr.size / 4)).map toUInt32) :: tail)
      else .error "unsupported array element type"
    | .tn => .error "n"
    | .th => .error "h"
    | .bad ch => .error (String.singleton ch)

/-- The methods of the two internal representation types, type callback
(method Done) and type wpPresentationFeedback (methods SyncOutput,
Presented, Discarded). -/
inductive MethodV
  | mDone
  | mSyncOutput
  | mPresented
  | mDiscarded
deriving DecidableEq

/-- Go argument types of each delegate method, after the receiver. -/
def methodParams : MethodV → List GoTy
  | .mDone => [.goUint32]
  | .mSyncOutput => [.goPtrOutput]
  | .mPresented =>
    [.goUint32, .goUint32, .goUint32, .goUint32, .goUint32, .goUint32, .goUint32]
  | .mDiscarded => []

/-- The proxy object variants of wayland.go that carry event callbacks.
Each Bool records whether the user set the corresponding callback field
(true) or left it nil (false). callbackO and feedbackO implement the
internaler interface and dispatch through their internal representation;
every other variant dispatches through public On-prefixed fields. -/
inductive WlObj
  | surfaceO (onPreferredBufferScale : Bool)
  | registryO (onGlobal : Bool) (onGlobalRemove : Bool)
  | bufferO (onRelease : Bool)
  | shmO (onFormat : Bool)
  | xdgWmBaseO (onPing : Bool)
  | xdgSurfaceO (onConfigure : Bool)
  | xdgToplevelO (onConfigure : Bool) (onClose : Bool) (onWmCapabilities : Bool)
  | decorationO (onConfigure : Bool)
  | wpPresentationO (onClockId : Bool)
  | callbackO (onDone : Bool)
  | feedbackO (onSyncOutput : Bool) (onPresented : Bool) (onDiscarded : Bool)
deriving DecidableEq

/-- Whether the stored proxy object implements the internaler interface;
in wayland.go only Callback and WpPresentationFeedback do. -/
def isInternaler : WlObj → Bool
  | .callbackO _ => true
  | .feedbackO _ _ _ => true
  | _ => false

/-- The reflect type tag of the internal representation of an internaler
object, the typ component of the method cache key. -/
def typeTagOf : WlObj → String
  | .callbackO _ => "callback"
  | .feedbackO _ _ _ => "wpPresentationFeedback"
  | _ => ""

/-- Semantics of reflect MethodByName on the internal representation
types: the exported method set of each type. -/
def methodByName (tag : String) (name : String) : Option MethodV :=
  if tag = "callback" then
    if name = "Done" then some .mDone else none
  else if tag = "wpPresentationFeedback" then
    if name = "SyncOutput" then some .mSyncOutput
    else if name = "Presented" then some .mPresented
    else if name = "Discarded" then some .mDiscarded
    else none
  else none

/-- Semantics of reflect FieldByName on the proxy structs: the exported
function-typed fields of each variant, with whether the field is set and
the declared parameter types of its function type. The field names come
from the struct declarations of wayland.go. -/
def fieldByName (obj : WlObj) (name : String) : Option (Bool × List GoTy) :=
  match obj with
  | .surfaceO b =>
    if name = "OnPreferred_buffer_scale" then some (b, [.goInt]) else none
  | .registryO g gr =>
    if name = "OnGlobal" then some (g, [.goUint32, .goString, .goUint32])
    else if name = "OnGlobalRemove" then some (gr, [.goUint32])
    else none
  | .bufferO b => if name = "OnRelease" then some (b, []) else none
  | .shmO b => if name = "OnFormat" then some (b, [.goUint32]) else none
  | .xdgWmBaseO b => if name = "OnPing" then some (b, [.goUint32]) else none
  | .xdgSurfaceO b => if name = "OnConfigure" then some (b, [.goUint32]) else none
  | .xdgToplevelO c cl wc =>
    if name = "OnConfigure" then some (c, [.goInt32, .goInt32, .goSlice .goUint32])
    else if name = "OnClose" then some (cl, [])
    else if name = "OnWm_capabilities" then some (wc, [.goSlice .goUint32])
    else none
  | .decorationO b => if name = "OnConfigure" then some (b, [.goUint32]) else none
  | .wpPresentationO b => if name = "OnClock_id" then some (b, [.goUint]) else none
  | .callbackO b => if name = "OnDone" then some (b, [.goUint32]) else none
  | .feedbackO s p d =>
    if name = "OnSyncOutput" then some (s, [.goPtrOutput])
    else if name = "OnPresented" then
      some (p, [.goUint32, .goUint32, .goUint32, .goUint32, .goUint32, .goUint32,
        .goUint32])
    else if name = "OnDiscarded" then some (d, [])
    else none

/-- A resolved callable: either a reflected method of an internal
representation type (delegated dispatch) or the function value read from a
public field (field-callback dispatch). -/
inductive Callable
  | methodC (tag : String) (m : MethodV)
  | fieldC (fname : String) (isSet : Bool) (params : List GoTy)
deriving DecidableEq

/-- One user-callback invocation observed during a dispatch: the handle of
the proxy whose callback fired, the callback field name, and the decoded
arguments passed to it. -/
structure Invocation where
  target : Nat
  callback : String
  args : List GoVal
deriving DecidableEq

/-- The wire message metadata the transport hands to the dispatcher. -/
structure WlMessage where
  name : String
  signature : String

/-- The dispatcher-relevant state of a Display: the proxy registry, the
method cache keyed by internal type tag and capitalized operation name,
and an instrumentation counter of reflective lookups (each MethodByName or
FieldByName call counts one). -/
structure DispState where
  proxies : Nat → Option WlObj
  methods : List ((String × String) × MethodV)
  lookups : Nat

/-- Go map read of the method cache. -/
def cacheFind : List ((String × String) × MethodV) → String → String → Option MethodV
  | [], _, _ => none
  | (k, m) :: rest, tg, nm =>
    if k.1 = tg ∧ k.2 = nm then some m else cacheFind rest tg nm

/-- Display.add without the C side effects: insert a proxy binding. -/
def addProxy (st : DispState) (h : Nat) (obj : WlObj) : DispState :=
  { st with proxies := fun x => if x = h then some obj else st.proxies x }

/-- Display.forget: delete a proxy binding from the registry. -/
def forget (st : DispState) (h : Nat) : DispState :=
  { st with proxies := fun x => if x = h then none else st.proxies x }

/-- Capitalization of the first byte of the operation name, wayland.go
line 208. -/
def capFirst : String → String
  | ⟨[]⟩ => ⟨[]⟩
  | ⟨c :: cs⟩ => ⟨c.toUpper :: cs⟩

/-- The handler resolution step of the dispatcher (lines 214-234): for an
internaler object, consult the method cache and fall back to MethodByName,
caching the result; otherwise read the On-prefixed public field. A missing
method or field is a panic. -/
def resolveStep (st : DispState) (obj : WlObj) (methName : String) :
    Except String (Callable × DispState) :=
  if isInternaler obj then
    let tag := typeTagOf obj
    match cacheFind st.methods tag methName with
    | some m => .ok (.methodC tag m, st)
    | none =>
      let st1 : DispState := { st with lookups := st.lookups + 1 }
      match methodByName tag methName with
      | some m =>
        .ok (.methodC tag m,
          { st1 with methods := ((tag, methName), m) :: st1.methods })
      | none => .error ("could not find method " ++ methName)
  else
    let st1 : DispState := { st with lookups := st.lookups + 1 }
    match fieldByName obj ("On" ++ methName) with
    | some (isSet, params) => .ok (.fieldC ("On" ++ methName) isSet params, st1)
    | none => .error ("could not find field On" ++ methName)

/-- Whether one call argument is accepted for one declared parameter type
by reflect Value.Call. -/
def valMatches : GoVal → GoTy → Bool
  | .intV t _, t2 => t = t2
  | .strV _, t2 => t2 = .goString
  | .sliceI32 _, t2 => t2 = .goSlice .goInt32
  | .sliceU32 _, t2 => t2 = .goSlice .goUint32
  | .recvV tag, t2 => t2 = .goRecvPtr tag

/-- The runtime checks of reflect Value.Call: argument count equals the
In-type count and every argument is accepted by its parameter type. -/
def callCheck (ins : List GoTy) (vals : List GoVal) : Bool :=
  vals.length = ins.length ∧ (vals.zip ins).all fun p => valMatches p.1 p.2

/-- reflect Value.Call on a delegate method value, given the full call
argument list whose head is the receiver (the internal representation),
followed by the bodies of the delegate methods (wayland.go lines 165-168
and 428-450): each calls the user callback field of its receiver with the
remaining arguments, a nil pointer dereference when the field is nil, and
Done, Presented and Discarded then remove their own handle from the
registry (Done through Destroy, the other two through forget). -/
def invokeDelegated (st : DispState) (h : Nat) (obj : WlObj) (m : MethodV)
    (callArgs : List GoVal) : Except String (DispState × List Invocation) :=
  match m, obj, callArgs with
  | .mDone, .callbackO onDone, .recvV _ :: vals =>
    if onDone then .ok (forget st h, [⟨h, "OnDone", vals⟩])
    else .error "nil pointer dereference"
  | .mSyncOutput, .feedbackO s _ _, .recvV _ :: vals =>
    if s then .ok (st, [⟨h, "OnSyncOutput", vals⟩])
    else .error "nil pointer dereference"
  | .mPresented, .feedbackO _ p _, .recvV _ :: vals =>
    if p then .ok (forget st h, [⟨h, "OnPresented", vals⟩])
    else .error "nil pointer dereference"
  | .mDiscarded, .feedbackO _ _ d, .recvV _ :: vals =>
    if d then .ok (forget st h, [⟨h, "OnDiscarded", vals⟩])
    else .error "nil pointer dereference"
  | _, _, _ => .error "method receiver mismatch"

/-- The dispatcher function (wayland.go lines 182-298). Looks the target
handle up in the registry (a panic when absent), capitalizes the first
byte of the operation name (an index panic on an empty name), resolves
the callable, returns successfully without invoking anything when the
resolved callable is nil, decodes the argument buffer against the
signature (parameter index i starts at 1 and slot offset at 0 for a
delegated method, both at 0 for a field callback), and calls the callable,
for a delegated method with the internal representation prepended as
receiver. -/
def dispatch (st : DispState) (target : Nat) (msg : WlMessage)
    (args : List WlSlot) : Except String (DispState × List Invocation) :=
  match st.proxies target with
  | none => .error "dispatcher does not know this proxy"
  | some obj =>
    match msg.name.data with
    | [] => .error "index out of range"
    | _ :: _ =>
      exBind (resolveStep st obj (capFirst msg.name)) fun p =>
      match p with
      | (.fieldC fname isSet params, st1) =>
        if isSet then
          exBind (decodeArgs params args msg.signature.data 0 0) fun vals =>
          if callCheck params vals then .ok (st1, [⟨target, fname, vals⟩])
          else .error "reflect: Call with wrong argument types"
        else .ok (st1, [])
      | (.methodC tag m, st1) =>
        exBind (decodeArgs (GoTy.goRecvPtr tag :: methodParams m) args
            msg.signature.data 1 0) fun vals =>
        if callCheck (GoTy.goRecvPtr tag :: methodParams m)
            (GoVal.recvV tag :: vals) then
          invokeDelegated st1 target obj m (GoVal.recvV tag :: vals)
        else .error "reflect: Call with wrong argument types"

/-- Success test on a dispatcher or decoder outcome. -/
def exOk {α : Type} : Except String α → Bool
  | .ok _ => true
  | .error _ => false

/-- The user-callback invocations observed in a dispatch outcome; a fatal
outcome invoked nothing. -/
def dispatchEvents : Except String (DispState × List Invocation) → List Invocation
  | .ok (_, evs) => evs
  | .error _ => []

/-- The reflective-lookup count of the state in a successful outcome. -/
def stateLookups : Except String (DispState × List Invocation) → Option Nat
  | .ok (s, _) => some s.lookups
  | .error _ => none

/-- Dispatching the same message twice in sequence, threading the state. -/
def dispatchTwice (st : DispState) (target : Nat) (msg : WlMessage)
    (args : List WlSlot) : Except String (DispState × List Invocation) :=
  match dispatch st target msg args with
  | .ok (s, _) => dispatch s target msg args
  | .error e => .error e

/-- The condition of the nil check at wayland.go line 235: the resolved
callable holds no function. A reflected method value is never nil, so the
check can only fire for field-callback dispatch, on an unset field. -/
def resolvedNilSlot (obj : WlObj) (methName : String) : Bool :=
  if isInternaler obj then false
  else
    match fieldByName obj ("On" ++ methName) with
    | some (isSet, _) => !isSet
    | none => false

/-- Consistency of the method cache with the reflected method tables: what
the cache stores for a key is what MethodByName returns for it. The empty
cache satisfies this, and resolveStep preserves it. -/
def cacheOK (st : DispState) : Prop :=
  ∀ tg nm m, cacheFind st.methods tg nm = some m → methodByName tg nm = some m

/-- C4: dispatching a message whose target handle has no live binding in
the registry is a fatal error: the dispatcher panics before resolving any
handler or decoding any argument. -/
theorem dispatch_unknown_proxy_fatal (st : DispState) (h : Nat)
    (msg : WlMessage) (args : List WlSlot) (hp : st.proxies h = none) :
    dispatch st h msg args = .error "dispatcher does not know this proxy" := by
  simp only [dispatch, hp]

/-- Witness for dispatch_unknown_proxy_fatal: a handle that was added and
then removed has no binding, and dispatching to it is the fatal error. -/
theorem dispatch_unknown_proxy_fatal_witness :
    (forget (addProxy ⟨fun _ => none, [], 0⟩ 5 (.surfaceO true)) 5).proxies 5 = none ∧
    dispatch (forget (addProxy ⟨fun _ => none, [], 0⟩ 5 (.surfaceO true)) 5) 5
      ⟨"done", "u"⟩ [] = .error "dispatcher does not know this proxy" :=
  ⟨rfl, dispatch_unknown_proxy_fatal _ 5 ⟨"done", "u"⟩ [] rfl⟩

/-- C6: decoding signature "?s" when the string slot holds a NULL pointer
produces the empty string and no error: the question mark tag is skipped
and GoString maps a NULL pointer to the empty Go string. -/
theorem decode_nullable_null_string (ins : List GoTy) (w : Nat) (a : WlArr)
    (rest : List WlSlot) (pi : Nat) :
    decodeArgs ins (⟨w, none, a⟩ :: rest) ['?', 's'] pi 0 = .ok [.strV ""] := rfl

/-- C10: decoding an array tag against a slice-typed parameter succeeds
exactly for element types int32 and uint32, producing a slice of
wire-size divided by four elements (floor division, no bounds or
alignment check); every other element type is a fatal error. -/
theorem decode_array_elem_types (el : GoTy) (w : Nat) (sp : Option String)
    (sz : Nat) (ws : List Nat) (hmem : sz / 4 ≤ ws.length) :
    (decodeArgs [.goSlice el] [⟨w, sp, ⟨sz, ws⟩⟩] ['a'] 0 0 =
      (if el = .goInt32 then .ok [.sliceI32 ((ws.take (sz / 4)).map toInt32)]
       else if el = .goUint32 then .ok [.sliceU32 ((ws.take (sz / 4)).map toUInt32)]
       else .error "unsupported array element type")) ∧
    (ws.take (sz / 4)).length = sz / 4 := by
  constructor
  · by_cases h1 : el = .goInt32
    · subst h1
      rfl
    · by_cases h2 : el = .goUint32
      · subst h2
        rfl
      · simp [decodeArgs, classify, getIn, elemOf, slotAt, exBind, h1, h2]
  · simp only [List.length_take]
    omega

/-- Witness for decode_array_elem_types: a seven-byte array decoded into a
parameter of type slice-of-int32 yields one element (floor of seven over
four), with no alignment check. -/
theorem decode_array_elem_types_witness :
    (7 : Nat) / 4 ≤ ([5, 4294967295, 9] : List Nat).length ∧
    ((decodeArgs [.goSlice .goInt32] [⟨0, none, ⟨7, [5, 4294967295, 9]⟩⟩] ['a'] 0 0 =
      (if GoTy.goInt32 = .goInt32 then
        .ok [.sliceI32 ((([5, 4294967295, 9] : List Nat).take (7 / 4)).map toInt32)]
       else if GoTy.goInt32 = .goUint32 then
        .ok [.sliceU32 ((([5, 4294967295, 9] : List Nat).take (7 / 4)).map toUInt32)]
       else .error "unsupported array element type")) ∧
     (([5, 4294967295, 9] : List Nat).take (7 / 4)).length = 7 / 4) :=
  ⟨by decide, decode_array_elem_types .goInt32 0 none 7 [5, 4294967295, 9] (by decide)⟩

/-- C2 counterexample: the Surface struct has no field named
OnPreferredBufferScale; capitalizing only the first byte of
preferred_buffer_scale keeps the underscores, and the concrete dispatch of
the example resolves the field named OnPreferred_buffer_scale instead. -/
theorem surface_scale_field_name_cex :
    fieldByName (.surfaceO true) "OnPreferredBufferScale" = none ∧
    capFirst "preferred_buffer_scale" = "Preferred_buffer_scale" ∧
    dispatchEvents (dispatch ⟨fun x => if x = 1 then some (.surfaceO true) else none, [], 0⟩ 1
      ⟨"preferred_buffer_scale", "i"⟩ [⟨2, none, ⟨0, []⟩⟩]) =
      [⟨1, "OnPreferred_buffer_scale", [.intV .goInt 2]⟩] := by
  refine ⟨by decide, by decide, by decide⟩

/-- C2 amended: dispatching the example message for a registered Surface
resolves the field named OnPreferred_buffer_scale and invokes it with the
single argument 2, successfully. -/
theorem surface_scale_dispatch_amended :
    exOk (dispatch ⟨fun x => if x = 1 then some (.surfaceO true) else none, [], 0⟩ 1
      ⟨"preferred_buffer_scale", "i"⟩ [⟨2, none, ⟨0, []⟩⟩]) = true ∧
    dispatchEvents (dispatch ⟨fun x => if x = 1 then some (.surfaceO true) else none, [], 0⟩ 1
      ⟨"preferred_buffer_scale", "i"⟩ [⟨2, none, ⟨0, []⟩⟩]) =
      [⟨1, "OnPreferred_buffer_scale", [.intV .goInt 2]⟩] := by
  refine ⟨by decide, by decide⟩

/-- C5: evaluation of the dispatcher at a message whose signature tag does
not match the parameter type of the resolved callable. The dispatcher
performs no validation step: the int32 value -1 decoded for tag i is
silently converted to the uint32 parameter of OnConfigure, and the
callback is invoked with 4294967295 instead of any fatal failure. -/
theorem dispatch_no_validation_converts :
    exOk (dispatch ⟨fun x => if x = 1 then some (.decorationO true) else none, [], 0⟩ 1
      ⟨"configure", "i"⟩ [⟨4294967295, none, ⟨0, []⟩⟩]) = true ∧
    dispatchEvents (dispatch ⟨fun x => if x = 1 then some (.decorationO true) else none, [], 0⟩ 1
      ⟨"configure", "i"⟩ [⟨4294967295, none, ⟨0, []⟩⟩]) =
      [⟨1, "OnConfigure", [.intV .goUint32 4294967295]⟩] := by
  refine ⟨by decide, by decide⟩

/-- C3 counterexample: for a field-callback object, resolving the same
(variant, operation) pair on two consecutive dispatches performs a
reflective field lookup both times: the instrumentation counter reaches
two, refuting that the underlying lookup runs at most once per pair. -/
theorem field_resolution_recount_cex :
    stateLookups (dispatch ⟨fun x => if x = 1 then some (.surfaceO true) else none, [], 0⟩ 1
      ⟨"preferred_buffer_scale", "i"⟩ [⟨2, none, ⟨0, []⟩⟩]) = some 1 ∧
    stateLookups (dispatchTwice ⟨fun x => if x = 1 then some (.surfaceO true) else none, [], 0⟩ 1
      ⟨"preferred_buffer_scale", "i"⟩ [⟨2, none, ⟨0, []⟩⟩]) = some 2 := by
  refine ⟨by decide, by decide⟩

/-- No object variant has a field named exactly On, so an empty operation
name can never satisfy the nil-slot condition. -/
theorem fieldByName_On_none (obj : WlObj) : fieldByName obj "On" = none := by
  cases obj <;> rfl

/-- C1: when the resolved callable slot is unset (nil) - which under
delegated dispatch never happens, method values being non-nil, and under
field-callback dispatch means the user left the field nil - the dispatch
returns success, invokes no user callback and signals no error. -/
theorem dispatch_nil_callback_noop (st : DispState) (h : Nat)
    (msg : WlMessage) (args : List WlSlot) (obj : WlObj)
    (hp : st.proxies h = some obj)
    (hn : resolvedNilSlot obj (capFirst msg.name) = true) :
    exOk (dispatch st h msg args) = true ∧
    dispatchEvents (dispatch st h msg args) = [] := by
  unfold resolvedNilSlot at hn
  cases hi : isInternaler obj with
  | true => rw [hi] at hn; simp at hn
  | false =>
    rw [hi] at hn
    simp only [Bool.false_eq_true, if_false] at hn
    cases hf : fieldByName obj ("On" ++ capFirst msg.name) with
    | none => rw [hf] at hn; simp at hn
    | some p =>
      rw [hf] at hn
      obtain ⟨isSet, params⟩ := p
      simp only [Bool.not_eq_true'] at hn
      subst hn
      cases hnm : msg.name.data with
      | nil =>
        exfalso
        have hempty : msg.name = ⟨[]⟩ := by
          cases hs : msg.name
          rw [hs] at hnm
          simp at hnm
          simp [hnm]
        rw [hempty] at hf
        have : capFirst ⟨[]⟩ = ⟨[]⟩ := rfl
        rw [this] at hf
        have h2 : ("On" ++ (⟨[]⟩ : String)) = "On" := rfl
        rw [h2] at hf
        rw [fieldByName_On_none obj] at hf
        exact Option.noConfusion hf
      | cons c cs =>
        simp only [dispatch, hp, hnm, resolveStep, hi, Bool.false_eq_true,
          if_false, hf]
        exact ⟨rfl, rfl⟩

/-- Witness for dispatch_nil_callback_noop: a Surface whose
OnPreferred_buffer_scale field is nil silently drops the event. -/
theorem dispatch_nil_callback_noop_witness :
    exOk (dispatch ⟨fun x => if x = 1 then some (.surfaceO false) else none, [], 0⟩ 1
      ⟨"preferred_buffer_scale", "i"⟩ [⟨2, none, ⟨0, []⟩⟩]) = true ∧
    dispatchEvents (dispatch ⟨fun x => if x = 1 then some (.surfaceO false) else none, [], 0⟩ 1
      ⟨"preferred_buffer_scale", "i"⟩ [⟨2, none, ⟨0, []⟩⟩]) = [] :=
  dispatch_nil_callback_noop _ 1 ⟨"preferred_buffer_scale", "i"⟩ _
    (.surfaceO false) rfl (by decide)

/-- A digit character falls into the continue case of the decode switch. -/
theorem classify_digit (d : Char) (hd : isDigitTag d = true) :
    classify d = .skip := by
  simp only [isDigitTag, decide_eq_true_eq] at hd
  rcases hd with h | h | h | h | h | h | h | h | h | h <;> subst h <;> rfl

/-- C7: a digit character anywhere in a signature produces no decoded
argument and consumes no argument slot: decoding is identical to decoding
the signature with the digit removed, at every parameter index and slot
offset. -/
theorem decode_digit_skipped (d : Char) (hd : isDigitTag d = true)
    (ins : List GoTy) (slots : List WlSlot) (s1 s2 : List Char) :
    ∀ pi si, decodeArgs ins slots (s1 ++ d :: s2) pi si =
      decodeArgs ins slots (s1 ++ s2) pi si := by
  induction s1 with
  | nil =>
    intro pi si
    simp only [List.nil_append, decodeArgs, classify_digit d hd]
  | cons c s1 ih =>
    intro pi si
    simp only [List.cons_append, decodeArgs]
    cases hc : classify c <;> simp only [List.append_eq, ih]

/-- Witness for decode_digit_skipped: the digit 3 between an i and a u tag
changes nothing about decoding. -/
theorem decode_digit_skipped_witness :
    isDigitTag '3' = true ∧
    decodeArgs [.goInt, .goUint32] [⟨2, none, ⟨0, []⟩⟩, ⟨7, none, ⟨0, []⟩⟩]
      (['i'] ++ '3' :: ['u']) 0 0 =
    decodeArgs [.goInt, .goUint32] [⟨2, none, ⟨0, []⟩⟩, ⟨7, none, ⟨0, []⟩⟩]
      (['i'] ++ ['u']) 0 0 :=
  ⟨by decide, decode_digit_skipped '3' (by decide) _ _ ['i'] ['u'] 0 0⟩

/-- A signature containing an n, an h or any character outside the tag
alphabet never decodes successfully: the loop panics at or before that
character. -/
theorem decodeArgs_badTag_isError (c : Char) (hc : badTag c = true)
    (s2 : List Char) (ins : List GoTy) (slots : List WlSlot) :
    ∀ (s1 : List Char) (pi si : Nat),
      exOk (decodeArgs ins slots (s1 ++ c :: s2) pi si) = false := by
  intro s1
  induction s1 with
  | nil =>
    intro pi si
    have hcc := hc
    unfold badTag at hcc
    simp only [List.nil_append]
    cases hclass : classify c <;> rw [hclass] at hcc <;>
      first
      | exact absurd hcc (by decide)
      | simp [decodeArgs, hclass, exOk]
  | cons a s1 ih =>
    intro pi si
    simp only [List.cons_append, decodeArgs, List.append_eq]
    cases hca : classify a
    case skip => exact ih pi si
    case ti =>
      cases hgi : getIn ins pi with
      | error e => simp [hgi, exBind_error, exOk]
      | ok ty =>
        simp only [hgi, exBind_ok]
        cases hcv : convertNum ty (toInt32 (slotAt slots si).word) with
        | error e => simp [hcv, exBind_error, exOk]
        | ok v =>
          simp only [hcv, exBind_ok]
          have hre := ih (pi + 1) (si + 1)
          cases hrd : decodeArgs ins slots (s1 ++ c :: s2) (pi + 1) (si + 1) with
          | error e => simp [hrd, exBind_error, exOk]
          | ok tail => rw [hrd] at hre; simp [exOk] at hre
    case tu =>
      cases hgi : getIn ins pi with
      | error e => simp [hgi, exBind_error, exOk]
      | ok ty =>
        simp only [hgi, exBind_ok]
        cases hcv : convertNum ty (toUInt32 (slotAt slots si).word) with
        | error e => simp [hcv, exBind_error, exOk]
        | ok v =>
          simp only [hcv, exBind_ok]
          have hre := ih (pi + 1) (si + 1)
          cases hrd : decodeArgs ins slots (s1 ++ c :: s2) (pi + 1) (si + 1) with
          | error e => simp [hrd, exBind_error, exOk]
          | ok tail => rw [hrd] at hre; simp [exOk] at hre
    case tobj =>
      cases hgi : getIn ins pi with
      | error e => simp [hgi, exBind_error, exOk]
      | ok ty =>
        simp only [hgi, exBind_ok]
        cases hcv : convertNum ty (toUInt32 (slotAt slots si).word) with
        | error e => simp [hcv, exBind_error, exOk]
        | ok v =>
          simp only [hcv, exBind_ok]
          have hre := ih (pi + 1) (si + 1)
          cases hrd : decodeArgs ins slots (s1 ++ c :: s2) (pi + 1) (si + 1) with
          | error e => simp [hrd, exBind_error, exOk]
          | ok tail => rw [hrd] at hre; simp [exOk] at hre
    case tf =>
      have hre := ih (pi + 1) (si + 1)
      cases hrd : decodeArgs ins slots (s1 ++ c :: s2) (pi + 1) (si + 1) with
      | error e => simp [hrd, exBind_error, exOk]
      | ok tail => rw [hrd] at hre; simp [exOk] at hre
    case ts =>
      have hre := ih (pi + 1) (si + 1)
      cases hrd : decodeArgs ins slots (s1 ++ c :: s2) (pi + 1) (si + 1) with
      | error e => simp [hrd, exBind_error, exOk]
      | ok tail => rw [hrd] at hre; simp [exOk] at hre
    case ta =>
      cases hgi : getIn ins pi with
      | error e => simp [hgi, exBind_error, exOk]
      | ok ty =>
        simp only [hgi, exBind_ok]
        cases hel : elemOf ty with
        | error e => simp [hel, exBind_error, exOk]
        | ok el =>
          simp only [hel, exBind_ok]
          have hre := ih (pi + 1) (si + 1)
          by_cases h1 : el = .goInt32
          · subst h1
            rw [if_pos rfl]
            cases hrd : decodeArgs ins slots (s1 ++ c :: s2) (pi + 1) (si + 1) with
            | error e => simp [hrd, exBind_error, exOk]
            | ok tail => rw [hrd] at hre; simp [exOk] at hre
          · by_cases h2 : el = .goUint32
            · subst h2
              rw [if_neg h1, if_pos rfl]
              cases hrd : decodeArgs ins slots (s1 ++ c :: s2) (pi + 1) (si + 1) with
              | error e => simp [hrd, exBind_error, exOk]
              | ok tail => rw [hrd] at hre; simp [exOk] at hre
            · rw [if_neg h1, if_neg h2]; rfl
    case tn => rfl
    case th => rfl
    case bad ch => rfl

/-- C8: a signature containing an h (file descriptor), an n (new object)
or any character outside the tag alphabet is a fatal decode error - the
decoder never succeeds past it - and no dispatch of a message with such a
signature ever invokes a handler. -/
theorem decode_bad_tag_fatal (c : Char) (hc : badTag c = true)
    (s1 s2 : List Char) :
    (∀ (ins : List GoTy) (slots : List WlSlot) (pi si : Nat),
      exOk (decodeArgs ins slots (s1 ++ c :: s2) pi si) = false) ∧
    (∀ (st : DispState) (h : Nat) (nm : String) (args : List WlSlot),
      dispatchEvents (dispatch st h ⟨nm, ⟨s1 ++ c :: s2⟩⟩ args) = []) := by
  constructor
  · intro ins slots pi si
    exact decodeArgs_badTag_isError c hc s2 ins slots s1 pi si
  · intro st h nm args
    unfold dispatch
    dsimp only
    cases hp : st.proxies h with
    | none => rfl
    | some obj =>
      cases hnm : nm.data with
      | nil => rfl
      | cons a as =>
        cases hr : resolveStep st obj (capFirst nm) with
        | error e => simp [hr, exBind_error, dispatchEvents]
        | ok p =>
          obtain ⟨cal, st1⟩ := p
          simp only [hr, exBind_ok]
          cases cal with
          | fieldC fname isSet params =>
            dsimp only
            cases isSet with
            | false => rfl
            | true =>
              rw [if_pos rfl]
              have hdec := decodeArgs_badTag_isError c hc s2 params args s1 0 0
              cases hd : decodeArgs params args (s1 ++ c :: s2) 0 0 with
              | error e => simp [hd, exBind_error, dispatchEvents]
              | ok vals => rw [hd] at hdec; simp [exOk] at hdec
          | methodC tag m =>
            dsimp only
            have hdec := decodeArgs_badTag_isError c hc s2
              (GoTy.goRecvPtr tag :: methodParams m) args s1 1 0
            cases hd : decodeArgs (GoTy.goRecvPtr tag :: methodParams m) args
                (s1 ++ c :: s2) 1 0 with
            | error e => simp [hd, exBind_error, dispatchEvents]
            | ok vals => rw [hd] at hdec; simp [exOk] at hdec

/-- Witness for decode_bad_tag_fatal: the h tag after a u tag makes
decoding fail and a dispatch of such a message invokes nothing. -/
theorem decode_bad_tag_fatal_witness :
    badTag 'h' = true ∧
    exOk (decodeArgs [.goUint32, .goInt32]
      [⟨1, none, ⟨0, []⟩⟩, ⟨2, none, ⟨0, []⟩⟩] (['u'] ++ 'h' :: ['i']) 0 0) = false ∧
    dispatchEvents (dispatch ⟨fun x => if x = 1 then some (.shmO true) else none, [], 0⟩ 1
      ⟨"format", ⟨['u'] ++ 'h' :: ['i']⟩⟩ [⟨1, none, ⟨0, []⟩⟩]) = [] :=
  ⟨by decide,
   (decode_bad_tag_fatal 'h' (by decide) ['u'] ['i']).1 _ _ 0 0,
   (decode_bad_tag_fatal 'h' (by decide) ['u'] ['i']).2 _ 1 "format" _⟩

/-- C3 amended: under delegated dispatch resolution is memoized - a second
resolution of the same (variant, operation) pair returns the same callable
and the very same state, the pair having cost at most one reflective
lookup in total - while under field-callback dispatch a second resolution
returns the same callable but performs one more reflective field lookup
every time (no memoization). -/
theorem resolve_memoization_amended (st : DispState) (obj : WlObj)
    (mn : String) (c : Callable) (st1 : DispState)
    (h : resolveStep st obj mn = .ok (c, st1)) :
    (isInternaler obj = true →
      resolveStep st1 obj mn = .ok (c, st1) ∧ st1.lookups ≤ st.lookups + 1) ∧
    (isInternaler obj = false →
      resolveStep st1 obj mn =
        .ok (c, { st1 with lookups := st1.lookups + 1 })) := by
  cases hi : isInternaler obj with
  | false =>
    refine ⟨fun hh => absurd hh (by simp [hi]), fun _ => ?_⟩
    unfold resolveStep at h
    rw [hi] at h
    simp only [Bool.false_eq_true, if_false] at h
    cases hf : fieldByName obj ("On" ++ mn) with
    | none => rw [hf] at h; exact absurd h (by simp)
    | some p =>
      obtain ⟨isSet, params⟩ := p
      rw [hf] at h
      simp only [Except.ok.injEq, Prod.mk.injEq] at h
      obtain ⟨hcq, hstq⟩ := h
      subst hcq
      subst hstq
      simp [resolveStep, hi, hf]
  | true =>
    refine ⟨fun _ => ?_, fun hh => absurd hh (by simp [hi])⟩
    unfold resolveStep at h
    rw [hi] at h
    simp only [if_true] at h
    cases hcf : cacheFind st.methods (typeTagOf obj) mn with
    | some m =>
      rw [hcf] at h
      simp only [Except.ok.injEq, Prod.mk.injEq] at h
      obtain ⟨hcq, hstq⟩ := h
      subst hcq
      subst hstq
      constructor
      · simp [resolveStep, hi, hcf]
      · exact Nat.le_succ _
    | none =>
      rw [hcf] at h
      cases hmb : methodByName (typeTagOf obj) mn with
      | none => rw [hmb] at h; exact absurd h (by simp)
      | some m =>
        rw [hmb] at h
        simp only [Except.ok.injEq, Prod.mk.injEq] at h
        obtain ⟨hcq, hstq⟩ := h
        subst hcq
        subst hstq
        constructor
        · simp [resolveStep, hi, cacheFind]
        · exact Nat.le_refl _

/-- Witness for resolve_memoization_amended: resolving Done on a Callback
from an empty cache caches the method; the second resolution hits the
cache and leaves the state unchanged. -/
theorem resolve_memoization_amended_witness :
    (isInternaler (.callbackO true) = true →
      resolveStep ⟨fun _ => none, [(("callback", "Done"), .mDone)], 1⟩
          (.callbackO true) "Done" =
        .ok (.methodC "callback" .mDone,
          ⟨fun _ => none, [(("callback", "Done"), .mDone)], 1⟩) ∧
      (⟨fun _ => none, [(("callback", "Done"), .mDone)], 1⟩ : DispState).lookups ≤
        (⟨fun _ => none, [], 0⟩ : DispState).lookups + 1) ∧
    (isInternaler (.callbackO true) = false →
      resolveStep ⟨fun _ => none, [(("callback", "Done"), .mDone)], 1⟩
          (.callbackO true) "Done" =
        .ok (.methodC "callback" .mDone,
          ⟨fun _ => none, [(("callback", "Done"), .mDone)], 2⟩)) :=
  resolve_memoization_amended ⟨fun _ => none, [], 0⟩ (.callbackO true) "Done"
    (.methodC "callback" .mDone)
    ⟨fun _ => none, [(("callback", "Done"), .mDone)], 1⟩ rfl

/-- Unsigned 32-bit wrapping is idempotent. -/
theorem wrap_u32_idem (v : Int) :
    wrap 32 false (wrap 32 false v) = wrap 32 false v := by
  unfold wrap
  have h32 : ((2 : Int) ^ (32 : Nat)) = 4294967296 := by norm_num
  simp only [Bool.false_eq_true, false_and, if_false, h32]
  omega

/-- Converting a uint32 value to the Go type uint32 is the identity. -/
theorem convertNum_u32 (w : Nat) :
    convertNum .goUint32 (toUInt32 w) = .ok (.intV .goUint32 (toUInt32 w)) := by
  have h1 : convertNum .goUint32 (toUInt32 w) =
      .ok (.intV .goUint32 (wrap 32 false (toUInt32 w))) := rfl
  rw [h1]
  unfold toUInt32
  rw [wrap_u32_idem]

/-- One u tag whose parameter type is uint32 decodes the slot word as an
unsigned 32-bit value and recurses. -/
theorem decodeArgs_u_step (ins : List GoTy) (slots : List WlSlot)
    (rest : List Char) (pi si : Nat) (hty : getIn ins pi = .ok .goUint32) :
    decodeArgs ins slots ('u' :: rest) pi si =
      exBind (decodeArgs ins slots rest (pi + 1) (si + 1)) fun tail =>
      .ok (.intV .goUint32 (toUInt32 (slotAt slots si).word) :: tail) := by
  have hcl : classify 'u' = TagK.tu := rfl
  simp only [decodeArgs, hcl, hty, exBind_ok, convertNum_u32]

/-- C9: under the delegated strategy, for every dispatched message the
resolved method is called with the internal representation as the first
(receiver) argument followed by the decoded arguments in signature order;
in particular, the presented operation with signature uuuuuuu on a
registered WpPresentationFeedback decodes the seven unsigned 32-bit
values in order, invokes OnPresented on that object with the seven
values, and removes the handle from the registry. -/
theorem delegated_receiver_then_args :
    (∀ (st : DispState) (h : Nat) (msg : WlMessage) (args : List WlSlot)
       (obj : WlObj) (tag : String) (m : MethodV) (st1 : DispState)
       (vals : List GoVal),
       st.proxies h = some obj →
       msg.name.data ≠ [] →
       resolveStep st obj (capFirst msg.name) = .ok (.methodC tag m, st1) →
       decodeArgs (GoTy.goRecvPtr tag :: methodParams m) args
         msg.signature.data 1 0 = .ok vals →
       isInternaler obj = true ∧
       dispatch st h msg args =
         (if callCheck (GoTy.goRecvPtr tag :: methodParams m)
              (GoVal.recvV tag :: vals) then
            invokeDelegated st1 h obj m (GoVal.recvV tag :: vals)
          else .error "reflect: Call with wrong argument types")) ∧
    (∀ (st : DispState) (h : Nat) (s0 d0 : Bool) (w1 w2 w3 w4 w5 w6 w7 : Nat),
       st.proxies h = some (.feedbackO s0 true d0) →
       cacheOK st →
       ∃ st2 : DispState,
         dispatch st h ⟨"presented", "uuuuuuu"⟩
           [⟨w1, none, ⟨0, []⟩⟩, ⟨w2, none, ⟨0, []⟩⟩, ⟨w3, none, ⟨0, []⟩⟩,
            ⟨w4, none, ⟨0, []⟩⟩, ⟨w5, none, ⟨0, []⟩⟩, ⟨w6, none, ⟨0, []⟩⟩,
            ⟨w7, none, ⟨0, []⟩⟩] =
           .ok (st2, [⟨h, "OnPresented",
             [.intV .goUint32 (toUInt32 w1), .intV .goUint32 (toUInt32 w2),
              .intV .goUint32 (toUInt32 w3), .intV .goUint32 (toUInt32 w4),
              .intV .goUint32 (toUInt32 w5), .intV .goUint32 (toUInt32 w6),
              .intV .goUint32 (toUInt32 w7)]⟩]) ∧
         st2.proxies h = none) := by
  constructor
  · intro st h msg args obj tag m st1 vals hp hne hr hd
    constructor
    · cases hi : isInternaler obj with
      | true => rfl
      | false =>
        exfalso
        unfold resolveStep at hr
        rw [hi] at hr
        simp only [Bool.false_eq_true, if_false] at hr
        cases hf : fieldByName obj ("On" ++ capFirst msg.name) with
        | none => rw [hf] at hr; exact absurd hr (by simp)
        | some p =>
          obtain ⟨isSet, params⟩ := p
          rw [hf] at hr
          simp only [Except.ok.injEq, Prod.mk.injEq] at hr
          exact absurd hr.1 (by simp)
    · unfold dispatch
      rw [hp]
      dsimp only
      cases hnm : msg.name.data with
      | nil => exact absurd hnm hne
      | cons a as =>
        rw [hr, exBind_ok]
        dsimp only
        rw [hd, exBind_ok]
  · intro st h s0 d0 w1 w2 w3 w4 w5 w6 w7 hp hco
    have hres : ∃ st1 : DispState,
        resolveStep st (.feedbackO s0 true d0) "Presented" =
          .ok (.methodC "wpPresentationFeedback" .mPresented, st1) ∧
        st1.proxies = st.proxies := by
      cases hcf : cacheFind st.methods "wpPresentationFeedback" "Presented" with
      | some m =>
        have hmb := hco _ _ _ hcf
        have hm : m = .mPresented := by
          have h2 : methodByName "wpPresentationFeedback" "Presented" =
              some .mPresented := rfl
          rw [h2] at hmb
          exact (Option.some.inj hmb).symm
        subst hm
        exact ⟨st, by simp [resolveStep, isInternaler, typeTagOf, hcf], rfl⟩
      | none =>
        refine ⟨{ st with
            lookups := st.lookups + 1,
            methods := (("wpPresentationFeedback", "Presented"), .mPresented) ::
              st.methods }, ?_, rfl⟩
        simp [resolveStep, isInternaler, typeTagOf, hcf, methodByName]
    obtain ⟨st1, hr, hpx⟩ := hres
    refine ⟨forget st1 h, ?_, ?_⟩
    · unfold dispatch
      rw [hp]
      dsimp only
      have hcap : capFirst "presented" = "Presented" := rfl
      rw [hcap, hr, exBind_ok]
      dsimp only
      rw [decodeArgs_u_step
          (GoTy.goRecvPtr "wpPresentationFeedback" :: methodParams .mPresented)
          _ _ 1 0 rfl,
        decodeArgs_u_step
          (GoTy.goRecvPtr "wpPresentationFeedback" :: methodParams .mPresented)
          _ _ 2 1 rfl,
        decodeArgs_u_step
          (GoTy.goRecvPtr "wpPresentationFeedback" :: methodParams .mPresented)
          _ _ 3 2 rfl,
        decodeArgs_u_step
          (GoTy.goRecvPtr "wpPresentationFeedback" :: methodParams .mPresented)
          _ _ 4 3 rfl,
        decodeArgs_u_step
          (GoTy.goRecvPtr "wpPresentationFeedback" :: methodParams .mPresented)
          _ _ 5 4 rfl,
        decodeArgs_u_step
          (GoTy.goRecvPtr "wpPresentationFeedback" :: methodParams .mPresented)
          _ _ 6 5 rfl,
        decodeArgs_u_step
          (GoTy.goRecvPtr "wpPresentationFeedback" :: methodParams .mPresented)
          _ _ 7 6 rfl]
      rfl
    · show (forget st1 h).proxies h = none
      simp [forget]

/-- Witness for delegated_receiver_then_args: the universal part at a
Done dispatch on a Callback (receiver first, then the one decoded uint32),
and the exemplar part at a concrete feedback object at handle 1 with
OnPresented set and an empty method cache. -/
theorem delegated_receiver_then_args_witness :
    (isInternaler (.callbackO true) = true ∧
     dispatch ⟨fun x => if x = 1 then some (.callbackO true) else none, [], 0⟩ 1
       ⟨"done", "u"⟩ [⟨9, none, ⟨0, []⟩⟩] =
       (if callCheck (GoTy.goRecvPtr "callback" :: methodParams .mDone)
            (GoVal.recvV "callback" :: [.intV .goUint32 9]) then
          invokeDelegated
            ⟨fun x => if x = 1 then some (.callbackO true) else none,
             [(("callback", "Done"), .mDone)], 1⟩ 1 (.callbackO true) .mDone
            (GoVal.recvV "callback" :: [.intV .goUint32 9])
        else .error "reflect: Call with wrong argument types")) ∧
    (∃ st2 : DispState,
       dispatch ⟨fun x => if x = 1 then some (.feedbackO false true false) else none,
           [], 0⟩ 1
         ⟨"presented", "uuuuuuu"⟩
         [⟨10, none, ⟨0, []⟩⟩, ⟨20, none, ⟨0, []⟩⟩, ⟨30, none, ⟨0, []⟩⟩,
          ⟨40, none, ⟨0, []⟩⟩, ⟨50, none, ⟨0, []⟩⟩, ⟨60, none, ⟨0, []⟩⟩,
          ⟨70, none, ⟨0, []⟩⟩] =
         .ok (st2, [⟨1, "OnPresented",
           [.intV .goUint32 (toUInt32 10), .intV .goUint32 (toUInt32 20),
            .intV .goUint32 (toUInt32 30), .intV .goUint32 (toUInt32 40),
            .intV .goUint32 (toUInt32 50), .intV .goUint32 (toUInt32 60),
            .intV .goUint32 (toUInt32 70)]⟩]) ∧
       st2.proxies 1 = none) :=
  ⟨delegated_receiver_then_args.1
      ⟨fun x => if x = 1 then some (.callbackO true) else none, [], 0⟩ 1
      ⟨"done", "u"⟩ [⟨9, none, ⟨0, []⟩⟩] (.callbackO true) "callback" .mDone
      ⟨fun x => if x = 1 then some (.callbackO true) else none,
       [(("callback", "Done"), .mDone)], 1⟩ [.intV .goUint32 9]
      rfl (by decide) rfl rfl,
   delegated_receiver_then_args.2 _ 1 false false 10 20 30 40 50 60 70 rfl
      (by intro tg nm m hm; simp [cacheFind] at hm)⟩
